import Mathlib

/-!
Verification development for the morgul-rs UDP frame pipeline.

This file gives a shallow embedding of the two core components of the
repository and proves theorems about them:

* the Deluge replay generator, from src/bin/deluge.rs: the per-thread
  send loop (send_data) and the main trigger/debounce loop (main);
* the per-port listener reassembly loop, from src/bin/morgul-live.rs
  (listen_port), together with its buffer pool and statistics.

Modelling conventions:

* Rust machine integers (u64/usize/u32) are modelled as Nat with explicit
  reduction modulo 2^64 (resp. 2^32) wherever the source performs
  arithmetic on them.  Wrapping subtraction (release-build semantics; a
  debug build would panic at the same spot) is written as addition of
  2^64 - 1 followed by the reduction.
* A packet payload (the 8192 data bytes of one datagram) is opaque to the
  reassembly logic, which only ever copies it as a whole block, so it is
  modelled as a single atom (a Nat).  A frame buffer (524288 bytes =
  64 * 8192) is modelled at 8192-byte slot granularity as a list of 64
  payload atoms: every write the listener performs is an exactly
  slot-aligned 8192-byte copy at offset packet_number * 8192.
* Fallible operations model a Rust panic (assert!, expect, unwrap) as
  Option.none.  Messages sent before a panic in the same iteration are
  not reported, since no claim observes the events of a panicking run.
* Wall-clock sleeping, socket configuration, thread affinity/priority and
  the barrier rendezvous have no bearing on the claims settled here and
  are not part of the state.
-/

namespace Morgul

/-- Modulus of Rust u64 / usize arithmetic (the deployment target is 64-bit). -/
def U64 : Nat := 2 ^ 64

/-- Modulus of Rust u32 arithmetic. -/
def U32 : Nat := 2 ^ 32

/-- Reduction of a u64/usize value after an arithmetic operation. -/
def u64 (x : Nat) : Nat := x % U64

/-- The 48-byte detector header, src/lib.rs:23-54.  All fields are
little-endian machine integers; their widths are recorded in comments. -/
structure SlsDetectorHeader where
  frame_number : Nat    -- u64
  exposure_length : Nat -- u32
  packet_number : Nat   -- u32
  bunch_id : Nat        -- u64
  timestamp : Nat       -- u64
  module_id : Nat       -- u16
  row : Nat             -- u16
  column : Nat          -- u16
  det_spec_2 : Nat      -- u16
  daq_info : Nat        -- u32
  det_spec_4 : Nat      -- u16
  det_type : Nat        -- u8
  version : Nat         -- u8
deriving Repr, DecidableEq

/-- SlsDetectorHeader::zeroed() (bytemuck::Zeroable), as used by send_data. -/
def SlsDetectorHeader.zeroed : SlsDetectorHeader :=
  { frame_number := 0, exposure_length := 0, packet_number := 0, bunch_id := 0,
    timestamp := 0, module_id := 0, row := 0, column := 0, det_spec_2 := 0,
    daq_info := 0, det_spec_4 := 0, det_type := 0, version := 0 }

/-- The 32-byte Deluge trigger, src/lib.rs:8-12.  exptime is an f32 on the
wire; it is only ever used by the sender for sleep pacing and printing,
never in any control flow modelled here, so it is carried as its raw bits.
uuid is 12 random bytes that the code never reads. -/
structure DelugeTrigger where
  frames : Nat   -- u128
  exptime : Nat  -- f32, raw bits, uninterpreted
  uuid : Nat     -- [u8; 12], opaque
deriving Repr, DecidableEq

/-! ## Listener data model (src/bin/morgul-live.rs) -/

/-- morgul-live.rs:22-27. -/
def LISTENERS_PER_PORT : Nat := 9

def MODULE_SIZE_X : Nat := 1024

def MODULE_SIZE_Y : Nat := 256

def NUM_PIXELS : Nat := MODULE_SIZE_X * MODULE_SIZE_Y

def BIT_DEPTH : Nat := 2

def THREAD_IMAGE_BUFFER_LENGTH : Nat := 10

/-- One 8192-byte packet payload, opaque to the reassembly logic. -/
abbrev Payload := Nat

/-- One image data buffer: MODULE_SIZE_X * MODULE_SIZE_Y * BIT_DEPTH =
524288 bytes = 64 slots of 8192 bytes, at slot granularity. -/
abbrev ImageBuffer := List Payload

/-- allocate_image_buffer (morgul-live.rs:55-59): a zero-filled buffer. -/
def allocate_image_buffer : ImageBuffer := List.replicate 64 0

/-- AcquisitionStats (morgul-live.rs:86-96).  All four counters are usize. -/
structure AcquisitionStats where
  images_seen : Nat
  complete_images : Nat
  packets_dropped : Nat
  out_of_order : Nat
deriving Repr, DecidableEq

/-- AcquisitionStats::default(): all counters zero. -/
def AcquisitionStats.default : AcquisitionStats :=
  { images_seen := 0, complete_images := 0, packets_dropped := 0, out_of_order := 0 }

/-- AcquisitionLifecycleState (morgul-live.rs:99-108): the messages a
listener can send on the coordinator channel. -/
inductive AcquisitionLifecycleState where
  | Starting (acquisition_number : Nat)
  | ImageReceived (image_number : Nat) (dropped_packets : Nat)
  | Ended (stats : AcquisitionStats)
deriving Repr, DecidableEq

/-- True exactly on the Ended variant. -/
def isEnded : AcquisitionLifecycleState → Bool
  | AcquisitionLifecycleState.Ended _ => true
  | _ => false

/-- ReceiveImage (morgul-live.rs:29-34). -/
structure ReceiveImage where
  frame_number : Nat
  header : SlsDetectorHeader
  received_packets : Nat
  data : ImageBuffer
deriving Repr, DecidableEq

/-- The per-listener mutable state of listen_port: the acquisition
statistics, the at-most-one in-flight image (last_image), and the stack
of spare image buffers (spare_images, morgul-live.rs:154-156; the head of
the list is the top of the Vec). -/
structure ListenerState where
  stats : AcquisitionStats
  last_image : Option ReceiveImage
  spare_images : List ImageBuffer
deriving Repr, DecidableEq

/-- One datagram as delivered by recvmsg: the RXQ_OVFL kernel drop count
from the ancillary control message, the decoded 48-byte header, the
payload block, and the total datagram length msg.bytes. -/
structure Datagram where
  dropped_packets : Nat
  header : SlsDetectorHeader
  payload : Payload
  bytes : Nat
deriving Repr, DecidableEq

/-- The outcome of processing one datagram: the new listener state, the
lifecycle messages sent on the coordinator channel during this iteration,
and, as an observation, the image completed by this packet (if any;
morgul-live.rs:272-281 pushes the completed image's buffer back to the
pool "to simulate sending it"). -/
structure StepResult where
  state : ListenerState
  sent : List AcquisitionLifecycleState
  completed : Option ReceiveImage
deriving Repr, DecidableEq

/-- morgul-live.rs:266-284: count the packet into the current image, copy
its payload into slot packet_number, and, if received_packets reaches 64,
close the image: return its buffer to the pool, clear last_image and
increment complete_images; otherwise keep it in flight. -/
def deliverPacket (sent : List AcquisitionLifecycleState) (stats : AcquisitionStats)
    (pool : List ImageBuffer) (d : Datagram) (current : ReceiveImage) : StepResult :=
  let current1 : ReceiveImage :=
    { current with
        received_packets := u64 (current.received_packets + 1),
        data := current.data.set d.header.packet_number d.payload }
  if current1.received_packets = 64 then
    { state := { stats := { stats with complete_images := u64 (stats.complete_images + 1) },
                 last_image := none,
                 spare_images := current1.data :: pool },
      sent := sent, completed := some current1 }
  else
    { state := { stats := stats, last_image := some current1, spare_images := pool },
      sent := sent, completed := none }

/-- morgul-live.rs:229-284: given the current image (either the previous
in-flight image or a freshly allocated one whose frame_number equals the
packet's), handle a frame-number mismatch and then deliver the packet.

A packet for an older frame (out-of-order) increments out_of_order and
decrements packets_dropped; the decrement is a usize subtraction, which
wraps in release builds (and panics in debug builds) when the counter is
zero.  A packet for a newer frame closes the incomplete current image,
charging its missing packets to packets_dropped and returning its buffer,
then starts a new image from the pool (none models the unwrap panic on an
empty pool). -/
def processCurrent (sent : List AcquisitionLifecycleState) (stats : AcquisitionStats)
    (pool : List ImageBuffer) (d : Datagram) (current : ReceiveImage) : Option StepResult :=
  if d.header.frame_number ≠ current.frame_number then
    if d.header.frame_number < current.frame_number then
      some { state := { stats := { stats with
                          out_of_order := u64 (stats.out_of_order + 1),
                          packets_dropped := u64 (stats.packets_dropped + (U64 - 1)) },
                        last_image := some current,
                        spare_images := pool },
             sent := sent, completed := none }
    else
      let stats1 := if current.received_packets < 64 then
          { stats with
            packets_dropped := u64 (stats.packets_dropped + (64 - current.received_packets)) }
        else stats
      let pool1 := if current.received_packets < 64 then current.data :: pool else pool
      let stats2 := { stats1 with images_seen := u64 (stats1.images_seen + 1) }
      match pool1 with
      | [] => none
      | buf :: pool2 =>
          some (deliverPacket sent stats2 pool2 d
            { frame_number := d.header.frame_number, header := d.header,
              received_packets := 0, data := buf })
  else
    some (deliverPacket sent stats pool d current)

/-- One iteration of the inner receive loop of listen_port
(morgul-live.rs:167-284) on a successfully received datagram:
add any kernel-reported queue-overflow drops to packets_dropped, send
Starting when there is no image in flight, check the two assertions
(packet_number < 64 and msg.bytes - 48 == 8192, the latter a usize
subtraction), count images_seen for a first packet, take the in-flight
image or allocate a fresh one from the pool (none models the expect panic
on an empty pool), and process the packet.  none models a panic. -/
def processPacket (acquisition_number : Nat) (s : ListenerState) (d : Datagram) :
    Option StepResult :=
  let stats0 := if 0 < d.dropped_packets then
      { s.stats with packets_dropped := u64 (s.stats.packets_dropped + d.dropped_packets) }
    else s.stats
  let sent0 : List AcquisitionLifecycleState :=
    if s.last_image.isNone then [AcquisitionLifecycleState.Starting acquisition_number] else []
  if d.header.packet_number < 64 ∧ u64 (d.bytes + (U64 - 48)) = 8192 then
    let stats1 := if s.last_image.isNone then
        { stats0 with images_seen := u64 (stats0.images_seen + 1) }
      else stats0
    match s.last_image with
    | some img => processCurrent sent0 stats1 s.spare_images d img
    | none =>
        match s.spare_images with
        | [] => none
        | buf :: pool =>
            processCurrent sent0 stats1 pool d
              { frame_number := d.header.frame_number, header := d.header,
                received_packets := 0, data := buf }
  else none

/-- Process a list of datagrams through the inner receive loop,
accumulating the lifecycle messages sent and the images completed.
none models a panic at some step. -/
def processPackets (acquisition_number : Nat) (s : ListenerState) :
    List Datagram → Option (ListenerState × List AcquisitionLifecycleState × List ReceiveImage)
  | [] => some (s, [], [])
  | d :: ds =>
    match processPacket acquisition_number s d with
    | none => none
    | some r =>
      match processPackets acquisition_number r.state ds with
      | none => none
      | some (s1, evts, comps) => some (s1, r.sent ++ evts, r.completed.toList ++ comps)

/-- morgul-live.rs:285-299 and 158-164: when the socket read times out
(EAGAIN) the inner loop breaks; the listener prints the statistics, waits
on the barrier, and the outer loop starts over with fresh default
statistics and no image in flight.  No message is sent on the coordinator
channel.  The in-flight image, if any, goes out of scope: its buffer is
dropped, NOT pushed back onto spare_images. -/
def endOfAcquisition (s : ListenerState) : ListenerState :=
  { stats := AcquisitionStats.default, last_image := none, spare_images := s.spare_images }

/-- The observable outcome of one whole acquisition: the listener state at
the start of the next acquisition, the messages sent, the images
completed, and the statistics as they stand when the acquisition ends
(what line 287 prints, before the reset). -/
structure AcquisitionResult where
  final : ListenerState
  sent : List AcquisitionLifecycleState
  completed : List ReceiveImage
  endStats : AcquisitionStats
deriving Repr, DecidableEq

/-- One full acquisition: a list of received datagrams followed by a
socket read timeout. -/
def runAcquisition (acquisition_number : Nat) (s : ListenerState) (ds : List Datagram) :
    Option AcquisitionResult :=
  match processPackets acquisition_number s ds with
  | none => none
  | some (s1, evts, comps) =>
      some { final := endOfAcquisition s1, sent := evts, completed := comps,
             endStats := s1.stats }

/-- The listener state right after start-up (morgul-live.rs:154-160):
zeroed statistics, no image in flight, and THREAD_IMAGE_BUFFER_LENGTH
freshly allocated buffers in the pool. -/
def initialListenerState : ListenerState :=
  { stats := AcquisitionStats.default, last_image := none,
    spare_images := List.replicate THREAD_IMAGE_BUFFER_LENGTH allocate_image_buffer }

/-! ## Deluge sender (src/bin/deluge.rs, send_data) -/

/-- The inner packet loop of send_data (deluge.rs:64-69), n iterations:
each iteration serialises the current header into the outgoing datagram,
sends it, and then increments header.packet_number (a u32).  Returns the
list of headers as transmitted and the header state afterwards. -/
def sendPackets : Nat → SlsDetectorHeader → List SlsDetectorHeader × SlsDetectorHeader
  | 0, h => ([], h)
  | n + 1, h =>
    let rest := sendPackets n { h with packet_number := (h.packet_number + 1) % U32 }
    (h :: rest.1, rest.2)

/-- One image (deluge.rs:64-72): 64 packets back-to-back, then
frame_number is incremented (a u64) and packet_number reset to 0. -/
def sendImage (h : SlsDetectorHeader) : List SlsDetectorHeader × SlsDetectorHeader :=
  let inner := sendPackets 64 h
  (inner.1, { inner.2 with frame_number := (inner.2.frame_number + 1) % U64,
                           packet_number := 0 })

/-- n successive images. -/
def sendImages : Nat → SlsDetectorHeader → List SlsDetectorHeader × SlsDetectorHeader
  | 0, h => ([], h)
  | n + 1, h =>
    let first := sendImage h
    let rest := sendImages n first.2
    (first.1 ++ rest.1, rest.2)

/-- The body of send_data's trigger loop (deluge.rs:49-81): having
received the trigger acq, the thread runs `for image_num in 0..2000`,
sending 2000 images.  The trigger's frames field is only used in the two
println calls; the loop bound is the literal 2000.  The sleeps that pace
the images are timing only and are not modelled.  Returns the transmitted
headers and the header state left for the next trigger (the header
variable lives outside the trigger loop and is never reset). -/
def sendBurst (acq : DelugeTrigger) (h : SlsDetectorHeader) :
    List SlsDetectorHeader × SlsDetectorHeader :=
  sendImages 2000 h

/-- The header state of one sender thread after k accepted triggers,
starting from the zeroed header of deluge.rs:45.  sendBurst does not read
its trigger argument, so a fixed dummy trigger loses no generality. -/
def headerAfterBursts : Nat → SlsDetectorHeader
  | 0 => SlsDetectorHeader.zeroed
  | k + 1 => (sendBurst { frames := 0, exptime := 0, uuid := 0 } (headerAfterBursts k)).2

/-- The headers transmitted during burst number k (0-based). -/
def burstPackets (k : Nat) : List SlsDetectorHeader :=
  (sendBurst { frames := 0, exptime := 0, uuid := 0 } (headerAfterBursts k)).1

/-- All header fields other than frame_number and packet_number are zero. -/
def otherFieldsZero (h : SlsDetectorHeader) : Prop :=
  h.exposure_length = 0 ∧ h.bunch_id = 0 ∧ h.timestamp = 0 ∧ h.module_id = 0 ∧
  h.row = 0 ∧ h.column = 0 ∧ h.det_spec_2 = 0 ∧ h.daq_info = 0 ∧
  h.det_spec_4 = 0 ∧ h.det_type = 0 ∧ h.version = 0

instance (h : SlsDetectorHeader) : Decidable (otherFieldsZero h) := by
  unfold otherFieldsZero; infer_instance

/-! ## Deluge trigger loop (src/bin/deluge.rs, main, lines 145-167) -/

/-- One iteration of the Deluge main loop on a received trigger datagram.
t is the arrival time in milliseconds on a monotone clock, len the
datagram's length.  recv into the 32-byte buffer copies min(len, 32)
bytes and discards the rest, so the asserted size is min(len, 32); a
failed assert is a panic (none).  If the previous trigger (accepted or
not) was less than 500 ms ago the trigger is dropped, but last_trigger is
still updated to now; otherwise the trigger is broadcast to the sender
threads.  Returns the new last_trigger and the broadcast trigger, if any. -/
def triggerStep (last_trigger : Option Nat) (t len : Nat) (trig : DelugeTrigger) :
    Option (Option Nat × Option DelugeTrigger) :=
  let size := min len 32
  if size = 32 then
    match last_trigger with
    | some last =>
        if t - last < 500 then some (some t, none)
        else some (some t, some trig)
    | none => some (some t, some trig)
  else none

/-- The Deluge main loop over a sequence of received trigger datagrams
(arrival time, datagram length, decoded trigger).  Returns the final
last_trigger and the list of (time, trigger) broadcasts; none if an
iteration panicked. -/
def triggerLoop (last_trigger : Option Nat) :
    List (Nat × Nat × DelugeTrigger) → Option (Option Nat × List (Nat × DelugeTrigger))
  | [] => some (last_trigger, [])
  | (t, len, trig) :: rest =>
    match triggerStep last_trigger t len trig with
    | none => none
    | some (lt1, b) =>
      match triggerLoop lt1 rest with
      | none => none
      | some (lt2, bs) => some (lt2, (b.map (fun x => (t, x))).toList ++ bs)

/-! ## Concrete inputs used by the theorems -/

/-- A detector header that differs from zero only in frame and packet
number, as the Deluge transmits. -/
def headerFP (f pn : Nat) : SlsDetectorHeader :=
  { SlsDetectorHeader.zeroed with frame_number := f, packet_number := pn }

/-- A well-formed datagram with the given frame number, packet number and
payload, no kernel drops, and the correct wire size of 8240 bytes. -/
def datagramFPP (f pn pay : Nat) : Datagram :=
  { dropped_packets := 0, header := headerFP f pn, payload := pay, bytes := 8240 }

/-- A well-formed datagram with zero payload. -/
def datagramFP (f pn : Nat) : Datagram := datagramFPP f pn 0

/-- Scenario S3 of the specification: packets 0..63 of frame 300 except
packet 33, then a packet of frame 299, then packet 33 of frame 300. -/
def s3Datagrams : List Datagram :=
  ((List.range 64).filter (fun pn => pn != 33)).map (datagramFP 300) ++
    [datagramFP 299 10, datagramFP 300 33]

/-- 64 packets of frame 100 whose packet numbers contain a duplicate
(packet 0 twice) and a gap (packet 63 never sent). -/
def duplicateDatagrams : List Datagram :=
  (0 :: List.range 63).map (datagramFP 100)

/-- A permutation (here: the identity order) of the 64 packets of frame
100 in which packet k carries payload k. -/
def c7Packets : List Datagram :=
  (List.range 64).map (fun k => datagramFPP 100 k k)

/-- One acquisition that ends with an incomplete image in flight: a single
packet of frame 5, then the 500 ms read timeout. -/
def leakStep (s : Option ListenerState) : Option ListenerState :=
  s.bind (fun st => (runAcquisition 0 st [datagramFP 5 0]).map (fun r => r.final))

/-- The listener state after n such single-packet acquisitions. -/
def afterLeakAcquisitions : Nat → Option ListenerState
  | 0 => some initialListenerState
  | n + 1 => leakStep (afterLeakAcquisitions n)

/-- A trigger value for concrete trigger-loop runs (its content never
affects the control flow). -/
def trigT : DelugeTrigger := { frames := 0, exptime := 0, uuid := 0 }

/-- Packets of one frame are well-formed for frame f and payload map p:
correct frame number, in-range packet number, payload determined by the
packet number, no kernel drops, correct wire size. -/
def goodPacket (f : Nat) (p : Nat → Payload) (d : Datagram) : Prop :=
  d.header.frame_number = f ∧ d.header.packet_number < 64 ∧
  d.payload = p d.header.packet_number ∧ d.dropped_packets = 0 ∧ d.bytes = 8240

instance (f : Nat) (p : Nat → Payload) (d : Datagram) : Decidable (goodPacket f p d) := by
  unfold goodPacket; infer_instance

/-- An in-flight image of frame 100 that has already counted 63 packets. -/
def c4Img : ReceiveImage :=
  { frame_number := 100, header := headerFP 100 0, received_packets := 63,
    data := allocate_image_buffer }

end Morgul

namespace Morgul

/-! ## Lemmas about the Deluge sender -/

theorem sendPackets_fst_length (n : Nat) (h : SlsDetectorHeader) :
    (sendPackets n h).1.length = n := by
  induction n generalizing h with
  | zero => rfl
  | succ n ih => simp [sendPackets, ih]

theorem sendPackets_fst_frame (n : Nat) (h : SlsDetectorHeader) :
    ∀ p ∈ (sendPackets n h).1, p.frame_number = h.frame_number := by
  induction n generalizing h with
  | zero => intro p hp; simp [sendPackets] at hp
  | succ n ih =>
    intro p hp
    simp only [sendPackets, List.mem_cons] at hp
    rcases hp with rfl | hp
    · rfl
    · exact ih { h with packet_number := (h.packet_number + 1) % U32 } p hp

theorem sendPackets_fst_other (n : Nat) (h : SlsDetectorHeader) (h0 : otherFieldsZero h) :
    ∀ p ∈ (sendPackets n h).1, otherFieldsZero p := by
  induction n generalizing h with
  | zero => intro p hp; simp [sendPackets] at hp
  | succ n ih =>
    intro p hp
    simp only [sendPackets, List.mem_cons] at hp
    rcases hp with rfl | hp
    · exact h0
    · exact ih { h with packet_number := (h.packet_number + 1) % U32 } h0 p hp

theorem sendPackets_snd_frame (n : Nat) (h : SlsDetectorHeader) :
    (sendPackets n h).2.frame_number = h.frame_number := by
  induction n generalizing h with
  | zero => rfl
  | succ n ih => simpa [sendPackets] using ih _

theorem sendPackets_snd_other (n : Nat) (h : SlsDetectorHeader) (h0 : otherFieldsZero h) :
    otherFieldsZero (sendPackets n h).2 := by
  induction n generalizing h with
  | zero => exact h0
  | succ n ih => exact ih _ h0

theorem sendImage_fst_length (h : SlsDetectorHeader) : (sendImage h).1.length = 64 :=
  sendPackets_fst_length 64 h

theorem sendImage_fst_frame (h : SlsDetectorHeader) :
    ∀ p ∈ (sendImage h).1, p.frame_number = h.frame_number :=
  sendPackets_fst_frame 64 h

theorem sendImage_fst_other (h : SlsDetectorHeader) (h0 : otherFieldsZero h) :
    ∀ p ∈ (sendImage h).1, otherFieldsZero p :=
  sendPackets_fst_other 64 h h0

theorem sendImage_snd_frame (h : SlsDetectorHeader) :
    (sendImage h).2.frame_number = (h.frame_number + 1) % U64 := by
  show ((sendPackets 64 h).2.frame_number + 1) % U64 = _
  rw [sendPackets_snd_frame]

theorem sendImage_snd_other (h : SlsDetectorHeader) (h0 : otherFieldsZero h) :
    otherFieldsZero (sendImage h).2 :=
  sendPackets_snd_other 64 h h0

theorem sendImages_fst_length (n : Nat) (h : SlsDetectorHeader) :
    (sendImages n h).1.length = n * 64 := by
  induction n generalizing h with
  | zero => rfl
  | succ n ih =>
    simp only [sendImages, List.length_append, ih]
    rw [sendImage_fst_length]
    omega

theorem sendImages_snd_frame (n : Nat) (h : SlsDetectorHeader)
    (hlt : h.frame_number < U64) :
    (sendImages n h).2.frame_number = (h.frame_number + n) % U64 := by
  induction n generalizing h with
  | zero => simpa [sendImages] using (Nat.mod_eq_of_lt hlt).symm
  | succ n ih =>
    show (sendImages n (sendImage h).2).2.frame_number = _
    rw [ih (sendImage h).2 (by rw [sendImage_snd_frame]; exact Nat.mod_lt _ (by decide)),
        sendImage_snd_frame, Nat.mod_add_mod]
    congr 1
    omega

theorem sendImages_snd_other (n : Nat) (h : SlsDetectorHeader) (h0 : otherFieldsZero h) :
    otherFieldsZero (sendImages n h).2 := by
  induction n generalizing h with
  | zero => exact h0
  | succ n ih => exact ih _ (sendImage_snd_other h h0)

theorem sendImages_fst_frame (n : Nat) (h : SlsDetectorHeader)
    (hlt : h.frame_number < U64) :
    ∀ p ∈ (sendImages n h).1, ∃ i, i < n ∧ p.frame_number = (h.frame_number + i) % U64 := by
  induction n generalizing h with
  | zero => intro p hp; simp [sendImages] at hp
  | succ n ih =>
    intro p hp
    simp only [sendImages, List.mem_append] at hp
    rcases hp with hp | hp
    · refine ⟨0, by omega, ?_⟩
      rw [sendImage_fst_frame h p hp, Nat.add_zero, Nat.mod_eq_of_lt hlt]
    · obtain ⟨i, hi, hpi⟩ :=
        ih (sendImage h).2 (by rw [sendImage_snd_frame]; exact Nat.mod_lt _ (by decide)) p hp
      refine ⟨i + 1, by omega, ?_⟩
      rw [hpi, sendImage_snd_frame, Nat.mod_add_mod]
      congr 1
      omega

theorem sendImages_fst_other (n : Nat) (h : SlsDetectorHeader) (h0 : otherFieldsZero h) :
    ∀ p ∈ (sendImages n h).1, otherFieldsZero p := by
  induction n generalizing h with
  | zero => intro p hp; simp [sendImages] at hp
  | succ n ih =>
    intro p hp
    simp only [sendImages, List.mem_append] at hp
    rcases hp with hp | hp
    · exact sendImage_fst_other h h0 p hp
    · exact ih _ (sendImage_snd_other h h0) p hp

theorem headerAfterBursts_frame (k : Nat) :
    (headerAfterBursts k).frame_number = (2000 * k) % U64 := by
  induction k with
  | zero => rfl
  | succ k ih =>
    show (sendImages 2000 (headerAfterBursts k)).2.frame_number = _
    rw [sendImages_snd_frame 2000 _ (by rw [ih]; exact Nat.mod_lt _ (by decide)), ih,
        Nat.mod_add_mod]
    congr 1

theorem headerAfterBursts_frame_lt (k : Nat) : (headerAfterBursts k).frame_number < U64 := by
  rw [headerAfterBursts_frame]
  exact Nat.mod_lt _ (by decide)

theorem headerAfterBursts_other (k : Nat) : otherFieldsZero (headerAfterBursts k) := by
  induction k with
  | zero => decide
  | succ k ih => exact sendImages_snd_other 2000 _ ih

theorem burstPackets_frame (k : Nat) :
    ∀ p ∈ burstPackets k, ∃ x, x < 2000 ∧ p.frame_number = (2000 * k + x) % U64 := by
  intro p hp
  obtain ⟨x, hx, hpx⟩ :=
    sendImages_fst_frame 2000 (headerAfterBursts k) (headerAfterBursts_frame_lt k) p hp
  refine ⟨x, hx, ?_⟩
  rw [hpx, headerAfterBursts_frame, Nat.mod_add_mod]

/-- Claim C1 (code bug): the send loop of send_data iterates over the
literal range 0..2000, so for a trigger carrying frames = 100 the thread
transmits 2000 images (128000 packets) and advances its frame counter by
2000, not by the trigger's frames field. -/
theorem deluge_sends_2000_images_regardless_of_frames :
    (sendBurst { frames := 100, exptime := 0, uuid := 0 } SlsDetectorHeader.zeroed).1.length =
      2000 * 64 ∧
    (sendBurst { frames := 100, exptime := 0, uuid := 0 }
        SlsDetectorHeader.zeroed).2.frame_number = 2000 ∧
    (2000 : Nat) ≠ 100 := by
  refine ⟨sendImages_fst_length 2000 _, ?_, by decide⟩
  show (sendImages 2000 SlsDetectorHeader.zeroed).2.frame_number = 2000
  rw [sendImages_snd_frame 2000 _ (by decide)]
  decide

/-- Claim C10: the sender's detector header persists across triggers.
Its frame_number is never reset between bursts, so (as long as the u64
frame counter does not wrap) every frame number of a later burst is
strictly greater than every frame number of an earlier one, the header
after j bursts carries frame_number 2000 * j (numbering continues where
the previous burst ended), and all header fields other than frame_number
and packet_number stay zero in every transmitted packet. -/
theorem deluge_header_persists_across_triggers (i j : Nat) (hij : i < j)
    (hov : 2000 * (j + 1) ≤ U64) :
    (∀ a ∈ burstPackets i, ∀ b ∈ burstPackets j, a.frame_number < b.frame_number) ∧
    (∀ k, ∀ p ∈ burstPackets k, otherFieldsZero p) ∧
    (headerAfterBursts j).frame_number = 2000 * j := by
  refine ⟨?_, ?_, ?_⟩
  · intro a ha b hb
    obtain ⟨x, hx, hax⟩ := burstPackets_frame i a ha
    obtain ⟨y, hy, hby⟩ := burstPackets_frame j b hb
    rw [hax, hby, Nat.mod_eq_of_lt (by omega), Nat.mod_eq_of_lt (by omega)]
    omega
  · intro k p hp
    exact sendImages_fst_other 2000 _ (headerAfterBursts_other k) p hp
  · rw [headerAfterBursts_frame, Nat.mod_eq_of_lt (by omega)]

theorem deluge_header_persists_across_triggers_witness :
    0 < 1 ∧ 2000 * (1 + 1) ≤ U64 ∧
    ((∀ a ∈ burstPackets 0, ∀ b ∈ burstPackets 1, a.frame_number < b.frame_number) ∧
     (∀ k, ∀ p ∈ burstPackets k, otherFieldsZero p) ∧
     (headerAfterBursts 1).frame_number = 2000 * 1) :=
  ⟨by decide, by decide,
   deluge_header_persists_across_triggers 0 1 (by decide) (by decide)⟩

end Morgul

namespace Morgul

/-! ## The Deluge trigger loop: debounce and size handling -/

/-- Claim C6 (counterexample): with triggers arriving at 0 ms, 400 ms and
800 ms (all of correct size), only the first is broadcast.  The trigger
at 800 ms arrives 800 ms ≥ 500 ms after the last ACCEPTED trigger (at
0 ms), yet it is dropped, because the dropped trigger at 400 ms also
advanced last_trigger (deluge.rs:151-155). -/
theorem trigger_after_500ms_of_accepted_still_dropped :
    triggerLoop none [(0, 32, trigT), (400, 32, trigT), (800, 32, trigT)] =
      some (some 800, [(0, trigT)]) ∧ 500 ≤ 800 - 0 := by
  decide

/-- Claim C6 (amended): the Deluge drops a trigger exactly when it arrives
within 500 ms of the previously RECEIVED trigger, whether that one was
accepted or dropped: every correctly-sized trigger datagram updates
last_trigger to its own arrival time, and acceptance is decided against
the previous received time only. -/
theorem debounce_relative_to_last_received (last_trigger : Option Nat) (t len : Nat)
    (trig : DelugeTrigger) (hlen : 32 ≤ len) :
    triggerStep last_trigger t len trig =
      some (some t,
        match last_trigger with
        | none => some trig
        | some last => if t - last < 500 then none else some trig) := by
  unfold triggerStep
  rw [if_pos (by omega : min len 32 = 32)]
  cases last_trigger with
  | none => rfl
  | some last => by_cases h : t - last < 500 <;> simp [h]

theorem debounce_relative_to_last_received_witness :
    (32 : Nat) ≤ 32 ∧
    triggerStep (some 0) 400 32 trigT =
      some (some 400,
        match some 0 with
        | none => some trigT
        | some last => if 400 - last < 500 then none else some trigT) :=
  ⟨by decide, debounce_relative_to_last_received (some 0) 400 32 trigT (by decide)⟩

/-- Claim C9 (counterexample): a trigger datagram whose size differs from
the 32-byte trigger struct is not silently dropped.  A 16-byte datagram
fails the size assertion of deluge.rs:148 and panics the process (modelled
as none); a 100-byte datagram is truncated to 32 bytes by recv, passes
the assertion, and IS processed: its decoded prefix is broadcast. -/
theorem wrong_size_trigger_not_silently_dropped :
    triggerStep none 0 16 trigT = none ∧
    triggerStep none 0 100 trigT = some (some 0, some trigT) := by
  decide

/-- Claim C9 (amended): on a datagram shorter than 32 bytes the Deluge
panics on the size assertion (no trigger is broadcast and the process
does not continue); a datagram of 32 bytes or more is truncated to 32
bytes by recv into the 32-byte buffer and then handled exactly like a
32-byte trigger.  In neither case is a wrong-size datagram silently
dropped. -/
theorem trigger_size_assertion (last_trigger : Option Nat) (t len : Nat)
    (trig : DelugeTrigger) :
    (len < 32 → triggerStep last_trigger t len trig = none) ∧
    (32 ≤ len → triggerStep last_trigger t len trig = triggerStep last_trigger t 32 trig) := by
  constructor
  · intro h
    unfold triggerStep
    rw [if_neg (by omega)]
  · intro h
    unfold triggerStep
    simp [show min len 32 = 32 by omega]

theorem trigger_size_assertion_witness :
    triggerStep none 5 16 trigT = none ∧
    triggerStep none 5 100 trigT = triggerStep none 5 32 trigT :=
  ⟨(trigger_size_assertion none 5 16 trigT).1 (by decide),
   (trigger_size_assertion none 5 100 trigT).2 (by decide)⟩

/-! ## Listener: concrete runs -/

/-- Claim C2 (code bug): the buffer pool does NOT return to
THREAD_IMAGE_BUFFER_LENGTH = 10 buffers at the start of every
acquisition.  When an acquisition ends (read timeout) while an incomplete
image is in flight, listen_port drops that image without pushing its
buffer back onto spare_images (the inner loop breaks at
morgul-live.rs:175 and last_image goes out of scope), so each such
acquisition leaks one buffer: after one single-packet acquisition the
pool holds 9 buffers, after ten it holds 0, and the first packet of the
eleventh panics on the expect at morgul-live.rs:225. -/
theorem buffer_pool_leaks_inflight_buffer :
    initialListenerState.spare_images.length = THREAD_IMAGE_BUFFER_LENGTH ∧
    (afterLeakAcquisitions 1).map (fun st => st.spare_images.length) = some 9 ∧
    (afterLeakAcquisitions 10).map (fun st => st.spare_images.length) = some 0 ∧
    ((afterLeakAcquisitions 10).bind
        (fun st => processPacket 0 st (datagramFP 5 0))).isNone = true := by
  decide

/-- Claim C3 (code bug): in scenario S3 (packets 0..63 of frame 300
except 33, then a packet of frame 299, then packet 33 of frame 300) the
out-of-order branch executes stats.packets_dropped -= 1 while the usize
counter is 0.  The subtraction underflows: the run ends with
packets_dropped = 2^64 - 1 in a release build (a debug build panics at
morgul-live.rs:238), not the 0 the claim states; out_of_order and
complete_images behave as claimed. -/
theorem s3_underflows_packets_dropped :
    (runAcquisition 0 initialListenerState s3Datagrams).map (fun r => r.endStats) =
      some { images_seen := 1, complete_images := 1, packets_dropped := U64 - 1,
             out_of_order := 1 } ∧
    U64 - 1 ≠ 0 := by
  constructor
  · decide
  · decide

/-- Claim C4 (counterexample): 64 packets of frame 100 whose packet
numbers contain a duplicate (0 twice) and never include 63 DO complete
the frame: the run ends with complete_images = 1 and one completed
image, although not all 64 distinct packet numbers were observed. -/
theorem duplicate_packet_numbers_complete_frame :
    ((duplicateDatagrams.map (fun d => d.header.packet_number)).count 0 = 2) ∧
    (63 ∉ duplicateDatagrams.map (fun d => d.header.packet_number)) ∧
    duplicateDatagrams.length = 64 ∧
    (runAcquisition 0 initialListenerState duplicateDatagrams).map
        (fun r => (r.endStats.complete_images, r.completed.length, r.endStats.images_seen)) =
      some (1, 1, 1) := by
  decide

/-- Claim C4 (amended): a listener marks a frame complete (returning its
buffer and incrementing complete_images) exactly when the 64th packet
bearing that frame_number is processed, packets counted WITH multiplicity
(received_packets is incremented for every same-frame packet, duplicates
included, morgul-live.rs:266-273); distinctness of packet_number is never
checked, so 64 packets for one frame_number containing duplicates do
complete the frame. -/
theorem frame_completion_counts_multiplicity (sent : List AcquisitionLifecycleState)
    (stats : AcquisitionStats) (pool : List ImageBuffer) (d : Datagram) (img : ReceiveImage)
    (hsame : d.header.frame_number = img.frame_number)
    (hlt : img.received_packets < U64) :
    processCurrent sent stats pool d img = some (deliverPacket sent stats pool d img) ∧
    ((deliverPacket sent stats pool d img).completed.isSome = true ↔
      img.received_packets = 63) := by
  constructor
  · unfold processCurrent
    rw [if_neg (by simp [hsame])]
  · have h64 : u64 (img.received_packets + 1) = 64 ↔ img.received_packets = 63 := by
      unfold U64 at hlt
      unfold u64 U64
      constructor
      · intro h; omega
      · intro h; omega
    simp only [deliverPacket]
    split
    case isTrue hc => simp only [Option.isSome_some, true_iff]; exact h64.mp hc
    case isFalse hc =>
      simp only [Option.isSome_none, Bool.false_eq_true, false_iff]
      intro h63
      exact hc (h64.mpr h63)

theorem frame_completion_counts_multiplicity_witness :
    (datagramFP 100 0).header.frame_number = c4Img.frame_number ∧
    c4Img.received_packets < U64 ∧
    (processCurrent [] AcquisitionStats.default [] (datagramFP 100 0) c4Img =
        some (deliverPacket [] AcquisitionStats.default [] (datagramFP 100 0) c4Img) ∧
      ((deliverPacket [] AcquisitionStats.default [] (datagramFP 100 0) c4Img).completed.isSome =
          true ↔ c4Img.received_packets = 63)) :=
  ⟨by decide, by decide,
   frame_completion_counts_multiplicity [] AcquisitionStats.default [] (datagramFP 100 0) c4Img
     (by decide) (by decide)⟩

/-- Claim C5 (counterexample): an acquisition consisting of one packet
followed by the read timeout sends only a Starting message on the
coordinator channel and zero Ended messages, not exactly one: listen_port
never constructs the Ended variant (it only prints the statistics at
morgul-live.rs:287-293). -/
theorem no_ended_event_on_acquisition_end :
    (runAcquisition 0 initialListenerState [datagramFP 5 0]).map
        (fun r => (r.sent, (r.sent.filter isEnded).length)) =
      some ([AcquisitionLifecycleState.Starting 0], 0) ∧ (0 : Nat) ≠ 1 := by
  decide

end Morgul

namespace Morgul

/-! ## Listener: lifecycle messages -/

theorem deliverPacket_sent (sent : List AcquisitionLifecycleState) (stats : AcquisitionStats)
    (pool : List ImageBuffer) (d : Datagram) (current : ReceiveImage) :
    (deliverPacket sent stats pool d current).sent = sent := by
  simp only [deliverPacket]
  split <;> rfl

theorem processCurrent_sent {sent : List AcquisitionLifecycleState} {stats : AcquisitionStats}
    {pool : List ImageBuffer} {d : Datagram} {current : ReceiveImage} {r : StepResult}
    (h : processCurrent sent stats pool d current = some r) : r.sent = sent := by
  simp only [processCurrent] at h
  split at h
  · split at h
    · obtain rfl := Option.some.inj h
      rfl
    · split at h
      · exact Option.noConfusion h
      · obtain rfl := Option.some.inj h
        exact deliverPacket_sent _ _ _ _ _
  · obtain rfl := Option.some.inj h
    exact deliverPacket_sent _ _ _ _ _

theorem processPacket_sent {acq : Nat} {s : ListenerState} {d : Datagram} {r : StepResult}
    (h : processPacket acq s d = some r) :
    r.sent = if s.last_image.isNone then [AcquisitionLifecycleState.Starting acq] else [] := by
  simp only [processPacket] at h
  split at h
  · split at h
    · exact processCurrent_sent h
    · split at h
      · exact Option.noConfusion h
      · exact processCurrent_sent h
  · exact Option.noConfusion h

theorem processPackets_all_starting (acq : Nat) :
    ∀ (ds : List Datagram) (s : ListenerState)
      (out : ListenerState × List AcquisitionLifecycleState × List ReceiveImage),
      processPackets acq s ds = some out →
      out.2.1.all (fun e => !(isEnded e)) = true := by
  intro ds
  induction ds with
  | nil =>
    intro s out h
    obtain rfl := Option.some.inj h
    rfl
  | cons d ds ih =>
    intro s out h
    simp only [processPackets] at h
    split at h
    · exact Option.noConfusion h
    case _ r heq =>
      split at h
      · exact Option.noConfusion h
      case _ s1 evts comps heq2 =>
        obtain rfl := Option.some.inj h
        simp only [List.all_append, Bool.and_eq_true]
        constructor
        · rw [processPacket_sent heq]
          split <;> rfl
        · exact ih r.state (s1, evts, comps) heq2

/-- Claim C5 (amended): the listener never sends the Ended lifecycle event
on the coordinator channel — over any acquisition, every message sent is
a Starting message and the count of Ended messages is zero (the Ended
variant of AcquisitionLifecycleState is never constructed by
listen_port); and the statistics are reset to all-zero defaults when the
acquisition ends, before anything of the next acquisition (in particular
its Starting event) happens. -/
theorem listener_never_sends_ended (acqNum : Nat) (s : ListenerState) (ds : List Datagram) :
    match runAcquisition acqNum s ds with
    | none => True
    | some r => r.sent.all (fun e => !(isEnded e)) = true ∧
        r.final.stats = AcquisitionStats.default := by
  cases hp : processPackets acqNum s ds with
  | none => simp [runAcquisition, hp]
  | some out =>
    obtain ⟨s1, evts, comps⟩ := out
    simp only [runAcquisition, hp]
    exact ⟨processPackets_all_starting acqNum ds s (s1, evts, comps) hp, rfl⟩

end Morgul

namespace Morgul

theorem bytesOk : u64 (8240 + (U64 - 48)) = 8192 := by decide

theorem processCurrent_same_frame (sent : List AcquisitionLifecycleState)
    (stats : AcquisitionStats) (pool : List ImageBuffer) (d : Datagram) (img : ReceiveImage)
    (hsame : d.header.frame_number = img.frame_number) :
    processCurrent sent stats pool d img = some (deliverPacket sent stats pool d img) := by
  simp only [processCurrent]
  rw [if_neg (by simp [hsame])]

theorem processPacket_inflight (acq : Nat) (stats : AcquisitionStats) (img : ReceiveImage)
    (pool : List ImageBuffer) (d : Datagram) (hdrop : d.dropped_packets = 0)
    (hpn : d.header.packet_number < 64) (hbytes : d.bytes = 8240) :
    processPacket acq { stats := stats, last_image := some img, spare_images := pool } d =
      processCurrent [] stats pool d img := by
  simp only [processPacket, hdrop, hbytes, Nat.lt_irrefl, if_false, Option.isNone_some,
    Bool.false_eq_true, if_neg]
  rw [if_pos ⟨hpn, bytesOk⟩]

theorem processPacket_fresh (acq : Nat) (stats : AcquisitionStats) (buf : ImageBuffer)
    (pool : List ImageBuffer) (d : Datagram) (hdrop : d.dropped_packets = 0)
    (hpn : d.header.packet_number < 64) (hbytes : d.bytes = 8240) :
    processPacket acq { stats := stats, last_image := none, spare_images := buf :: pool } d =
      processCurrent [AcquisitionLifecycleState.Starting acq]
        { stats with images_seen := u64 (stats.images_seen + 1) } pool d
        { frame_number := d.header.frame_number, header := d.header,
          received_packets := 0, data := buf } := by
  simp only [processPacket, hdrop, hbytes, Nat.lt_irrefl, if_false, Option.isNone_none, if_true]
  rw [if_pos ⟨hpn, bytesOk⟩]

theorem deliverPacket_not_complete (sent : List AcquisitionLifecycleState)
    (stats : AcquisitionStats) (pool : List ImageBuffer) (d : Datagram) (current : ReceiveImage)
    (h : u64 (current.received_packets + 1) ≠ 64) :
    deliverPacket sent stats pool d current =
      { state := { stats := stats,
                   last_image := some { current with
                     received_packets := u64 (current.received_packets + 1),
                     data := current.data.set d.header.packet_number d.payload },
                   spare_images := pool },
        sent := sent, completed := none } := by
  simp only [deliverPacket]
  rw [if_neg h]

theorem deliverPacket_complete (sent : List AcquisitionLifecycleState)
    (stats : AcquisitionStats) (pool : List ImageBuffer) (d : Datagram) (current : ReceiveImage)
    (h : u64 (current.received_packets + 1) = 64) :
    deliverPacket sent stats pool d current =
      { state := { stats := { stats with complete_images := u64 (stats.complete_images + 1) },
                   last_image := none,
                   spare_images := (current.data.set d.header.packet_number d.payload) :: pool },
        sent := sent,
        completed := some { current with
          received_packets := u64 (current.received_packets + 1),
          data := current.data.set d.header.packet_number d.payload } } := by
  simp only [deliverPacket]
  rw [if_pos h]

end Morgul

namespace Morgul

theorem processPackets_same_frame_partial (acq : Nat) (f : Nat) (p : Nat → Payload) :
    ∀ (rem : List Datagram) (stats : AcquisitionStats) (img : ReceiveImage)
      (pool : List ImageBuffer),
      (∀ d ∈ rem, goodPacket f p d) →
      img.frame_number = f →
      img.data.length = 64 →
      img.received_packets + rem.length ≤ 63 →
      ∃ img1 : ReceiveImage,
        processPackets acq { stats := stats, last_image := some img, spare_images := pool } rem =
          some ({ stats := stats, last_image := some img1, spare_images := pool }, [], []) ∧
        img1.frame_number = f ∧ img1.header = img.header ∧ img1.data.length = 64 ∧
        img1.received_packets = img.received_packets + rem.length ∧
        (∀ k, k ∉ rem.map (fun d => d.header.packet_number) → img1.data[k]? = img.data[k]?) ∧
        (∀ k, k ∈ rem.map (fun d => d.header.packet_number) → img1.data[k]? = some (p k)) := by
  intro rem
  induction rem with
  | nil =>
    intro stats img pool hwf hf hlen hrec
    exact ⟨img, rfl, hf, rfl, hlen, rfl, fun k hk => rfl, fun k hk => absurd hk (by simp)⟩
  | cons d rest ih =>
    intro stats img pool hwf hf hlen hrec
    obtain ⟨hdf, hdpn, hdpay, hddrop, hdbytes⟩ := hwf d (by simp)
    have hrec1 : img.received_packets + (rest.length + 1) ≤ 63 := by
      simpa [List.length_cons] using hrec
    have hsmall : u64 (img.received_packets + 1) = img.received_packets + 1 := by
      unfold u64 U64
      omega
    have hnc : u64 (img.received_packets + 1) ≠ 64 := by
      rw [hsmall]
      omega
    have hstep : processPacket acq
        { stats := stats, last_image := some img, spare_images := pool } d =
          some (deliverPacket [] stats pool d img) := by
      rw [processPacket_inflight acq stats img pool d hddrop hdpn hdbytes,
          processCurrent_same_frame [] stats pool d img (by rw [hdf, hf])]
    obtain ⟨img1, hrun, h1f, h1h, h1len, h1rec, h1old, h1new⟩ := ih stats
      { img with received_packets := u64 (img.received_packets + 1),
                 data := img.data.set d.header.packet_number d.payload } pool
      (fun q hq => hwf q (by simp [hq]))
      hf
      (by simpa using hlen)
      (by simp only [hsmall]; omega)
    refine ⟨img1, ?_, h1f, h1h, h1len, ?_, ?_, ?_⟩
    · simp only [processPackets, hstep]
      rw [deliverPacket_not_complete _ _ _ _ _ hnc]
      simp only [hrun, List.nil_append, Option.toList_none]
    · simp only [h1rec, hsmall, List.length_cons]
      omega
    · intro k hk
      simp only [List.map_cons, List.mem_cons, not_or] at hk
      obtain ⟨hk1, hk2⟩ := hk
      rw [h1old k hk2]
      exact List.getElem?_set_ne (fun h => hk1 h.symm)
    · intro k hk
      simp only [List.map_cons, List.mem_cons] at hk
      by_cases hk2 : k ∈ rest.map (fun d => d.header.packet_number)
      · exact h1new k hk2
      · have hk1 : k = d.header.packet_number := by
          rcases hk with h | h
          · exact h
          · exact absurd h hk2
        rw [h1old k hk2, hk1, hdpay]
        exact List.getElem?_set_eq_of_lt _ (by rw [hlen]; exact hdpn)

end Morgul

namespace Morgul

theorem processPackets_same_frame_complete (acq : Nat) (f : Nat) (p : Nat → Payload) :
    ∀ (rem : List Datagram) (stats : AcquisitionStats) (img : ReceiveImage)
      (pool : List ImageBuffer),
      rem ≠ [] →
      (∀ d ∈ rem, goodPacket f p d) →
      img.frame_number = f →
      img.data.length = 64 →
      img.received_packets + rem.length = 64 →
      (∀ k, k < 64 → k ∉ rem.map (fun d => d.header.packet_number) →
        img.data[k]? = some (p k)) →
      ∃ data1 : ImageBuffer,
        processPackets acq { stats := stats, last_image := some img, spare_images := pool } rem =
          some ({ stats := { stats with complete_images := u64 (stats.complete_images + 1) },
                  last_image := none, spare_images := data1 :: pool },
                [],
                [{ frame_number := f, header := img.header,
                   received_packets := 64, data := data1 }]) ∧
        data1.length = 64 ∧ (∀ k, k < 64 → data1[k]? = some (p k)) := by
  intro rem
  induction rem with
  | nil => intro stats img pool hne; exact absurd rfl hne
  | cons d rest ih =>
    intro stats img pool hne hwf hf hlen hrec hinv
    obtain ⟨hdf, hdpn, hdpay, hddrop, hdbytes⟩ := hwf d (by simp)
    have hstep : processPacket acq
        { stats := stats, last_image := some img, spare_images := pool } d =
          some (deliverPacket [] stats pool d img) := by
      rw [processPacket_inflight acq stats img pool d hddrop hdpn hdbytes,
          processCurrent_same_frame [] stats pool d img (by rw [hdf, hf])]
    cases rest with
    | nil =>
      have h63 : img.received_packets = 63 := by
        simpa using hrec
      have hc : u64 (img.received_packets + 1) = 64 := by
        rw [h63]
        decide
      refine ⟨img.data.set d.header.packet_number d.payload, ?_, ?_, ?_⟩
      · simp only [processPackets, hstep]
        rw [deliverPacket_complete _ _ _ _ _ hc]
        simp only [hc, hf, List.nil_append, Option.toList_some, List.append_nil]
      · rw [List.length_set]
        exact hlen
      · intro k hk
        by_cases hkd : k = d.header.packet_number
        · subst hkd
          rw [hdpay]
          exact List.getElem?_set_eq_of_lt _ (by rw [hlen]; exact hdpn)
        · rw [List.getElem?_set_ne (fun h => hkd h.symm)]
          exact hinv k hk (by simpa using hkd)
    | cons d2 rest2 =>
      have hsmall : u64 (img.received_packets + 1) = img.received_packets + 1 := by
        have : img.received_packets + 1 ≤ 63 := by
          simp only [List.length_cons] at hrec
          omega
        unfold u64 U64
        omega
      have hnc : u64 (img.received_packets + 1) ≠ 64 := by
        rw [hsmall]
        simp only [List.length_cons] at hrec
        omega
      obtain ⟨data1, hrun, h1len, h1inv⟩ := ih stats
        { img with received_packets := u64 (img.received_packets + 1),
                   data := img.data.set d.header.packet_number d.payload } pool
        (by simp)
        (fun q hq => hwf q (by simp [hq]))
        hf
        (by simpa using hlen)
        (by simp only [hsmall, List.length_cons] at hrec ⊢; omega)
        (by
          intro k hk hknot
          by_cases hkd : k = d.header.packet_number
          · subst hkd
            show (img.data.set d.header.packet_number d.payload)[d.header.packet_number]? = _
            rw [hdpay]
            exact List.getElem?_set_eq_of_lt _ (by rw [hlen]; exact hdpn)
          · show (img.data.set d.header.packet_number d.payload)[k]? = _
            rw [List.getElem?_set_ne (fun h => hkd h.symm)]
            refine hinv k hk ?_
            intro hmem
            rw [List.map_cons, List.mem_cons] at hmem
            rcases hmem with h | h
            · exact hkd h
            · exact hknot h)
      refine ⟨data1, ?_, h1len, h1inv⟩
      revert hrun
      generalize (d2 :: rest2 : List Datagram) = rest
      intro hrun
      simp only [processPackets, hstep]
      rw [deliverPacket_not_complete _ _ _ _ _ hnc]
      simp only [hrun, List.nil_append, Option.toList_none]

end Morgul

namespace Morgul

/-- Claim C7: reassembly correctness.  For every injected sequence that
is a permutation of the 64 packets (distinct packet numbers 0..63, all
below 64) of a single frame_number f, each packet k carrying payload
p k, a listener with no image in flight and a non-empty pool of
64-slot buffers completes exactly one frame: the run succeeds, exactly
one image is completed, its frame_number is f, and for every k < 64 its
data slot k (bytes k*8192..(k+1)*8192) equals the payload of the packet
with packet_number k; complete_images increases by one and no image
remains in flight. -/
theorem reassembly_correct (acqNum : Nat) (s : ListenerState) (f : Nat) (p : Nat → Payload)
    (l : List Datagram)
    (hperm : (l.map (fun d => d.header.packet_number)).Perm (List.range 64))
    (hnone : s.last_image = none)
    (hpool : s.spare_images ≠ [])
    (hbuf : ∀ b ∈ s.spare_images, b.length = 64)
    (hwf : ∀ d ∈ l, goodPacket f p d) :
    ∃ g evts img1, processPackets acqNum s l = some (g, evts, [img1]) ∧
      img1.frame_number = f ∧ img1.received_packets = 64 ∧
      (∀ k, k < 64 → img1.data[k]? = some (p k)) ∧
      g.stats.complete_images = u64 (s.stats.complete_images + 1) ∧
      g.last_image = none := by
  obtain ⟨stats, li, pool⟩ := s
  obtain rfl : li = none := hnone
  have hlen : l.length = 64 := by
    have h := hperm.length_eq
    simpa using h
  cases l with
  | nil => simp at hlen
  | cons d rest =>
    cases pool with
    | nil => exact absurd rfl hpool
    | cons buf pool =>
      obtain ⟨hdf, hdpn, hdpay, hddrop, hdbytes⟩ := hwf d (by simp)
      have hbuf64 : buf.length = 64 := hbuf buf (by simp)
      have hrestlen : rest.length = 63 := by simpa using hlen
      set img0 : ReceiveImage :=
        { frame_number := d.header.frame_number, header := d.header, received_packets := 0, data := buf }
        with himg0
      have hstep : processPacket acqNum
          { stats := stats, last_image := none, spare_images := buf :: pool } d =
            some (deliverPacket [AcquisitionLifecycleState.Starting acqNum]
              { stats with images_seen := u64 (stats.images_seen + 1) } pool d img0) := by
        rw [processPacket_fresh acqNum stats buf pool d hddrop hdpn hdbytes,
            processCurrent_same_frame _ _ _ _ _ rfl]
      have hnc : u64 (img0.received_packets + 1) ≠ 64 := by
        show u64 (0 + 1) ≠ 64
        decide
      obtain ⟨data1, hrun, h1len, h1inv⟩ :=
        processPackets_same_frame_complete acqNum f p rest
          { stats with images_seen := u64 (stats.images_seen + 1) }
          { img0 with received_packets := u64 (img0.received_packets + 1),
                      data := img0.data.set d.header.packet_number d.payload }
          pool
          (by intro h; rw [h] at hrestlen; simp at hrestlen)
          (fun q hq => hwf q (by simp [hq]))
          hdf
          (by show (buf.set d.header.packet_number d.payload).length = 64
              rw [List.length_set]
              exact hbuf64)
          (by show u64 (0 + 1) + rest.length = 64
              rw [hrestlen]
              decide)
          (by
            intro k hk hknot
            have hkmem : k ∈ (d :: rest).map (fun q => q.header.packet_number) := by
              refine hperm.symm.mem_iff.mp ?_
              simpa using hk
            rw [List.map_cons, List.mem_cons] at hkmem
            rcases hkmem with hkd | hkr
            · subst hkd
              show (buf.set d.header.packet_number d.payload)[d.header.packet_number]? = _
              rw [hdpay]
              refine List.getElem?_set_eq_of_lt _ ?_
              rw [hbuf64]
              exact hdpn
            · exact absurd hkr hknot)
      refine ⟨{ stats := { images_seen := u64 (stats.images_seen + 1),
                           complete_images := u64 (stats.complete_images + 1),
                           packets_dropped := stats.packets_dropped,
                           out_of_order := stats.out_of_order },
                last_image := none, spare_images := data1 :: pool },
              [AcquisitionLifecycleState.Starting acqNum],
              { frame_number := f, header := d.header, received_packets := 64, data := data1 },
              ?_, rfl, rfl, h1inv, rfl, rfl⟩
      simp only [processPackets, hstep]
      rw [deliverPacket_not_complete _ _ _ _ _ hnc]
      simp only [hrun, List.nil_append, List.append_nil, Option.toList_none]

end Morgul

namespace Morgul

theorem processPacket_new_frame (acq : Nat) (stats : AcquisitionStats) (img : ReceiveImage)
    (pool : List ImageBuffer) (d : Datagram)
    (hdrop : d.dropped_packets = 0) (hpn : d.header.packet_number < 64) (hbytes : d.bytes = 8240)
    (hgt : img.frame_number < d.header.frame_number)
    (hinc : img.received_packets < 64) :
    processPacket acq { stats := stats, last_image := some img, spare_images := pool } d =
      some (deliverPacket []
        { stats with
            packets_dropped := u64 (stats.packets_dropped + (64 - img.received_packets)),
            images_seen := u64 (stats.images_seen + 1) }
        pool d
        { frame_number := d.header.frame_number, header := d.header,
          received_packets := 0, data := img.data }) := by
  rw [processPacket_inflight acq stats img pool d hdrop hpn hbytes]
  simp only [processCurrent]
  rw [if_pos (Nat.ne_of_gt hgt), if_neg (by omega : ¬d.header.frame_number < img.frame_number),
      if_pos hinc, if_pos hinc]

theorem processPackets_append (acq : Nat) (l1 l2 : List Datagram) :
    ∀ s : ListenerState,
      processPackets acq s (l1 ++ l2) =
        match processPackets acq s l1 with
        | none => none
        | some (s1, evts, comps) =>
          match processPackets acq s1 l2 with
          | none => none
          | some (s2, evts2, comps2) => some (s2, evts ++ evts2, comps ++ comps2) := by
  induction l1 with
  | nil =>
    intro s
    simp only [List.nil_append, processPackets]
    cases hp : processPackets acq s l2 with
    | none => rfl
    | some out =>
      obtain ⟨s2, e2, c2⟩ := out
      simp
  | cons d l1 ih =>
    intro s
    cases hp : processPacket acq s d with
    | none => simp only [List.cons_append, processPackets, hp]
    | some r =>
      simp only [List.cons_append, processPackets, hp, List.append_eq]
      rw [ih r.state]
      cases hq : processPackets acq r.state l1 with
      | none => simp only [hq]
      | some out =>
        obtain ⟨s1, e1, c1⟩ := out
        simp only [hq]
        cases hr : processPackets acq s1 l2 with
        | none => rfl
        | some out2 =>
          obtain ⟨s2, e2, c2⟩ := out2
          simp [List.append_assoc]

end Morgul

namespace Morgul

/-- Claim C8: loss accounting.  If, for a frame f, exactly m < 64
packets with distinct packet numbers are delivered to a listener with no
image in flight, and then a packet of frame f + 1 arrives (with no
kernel-reported queue-overflow drops anywhere), then the run succeeds,
packets_dropped increases by exactly 64 - m at the f-to-(f+1)
transition, and images_seen increases by 1 for the new frame (on top of
the 1 it gained when frame f started).  The two U64 bounds rule out
wrap-around of the usize counters. -/
theorem loss_accounting (acqNum : Nat) (s : ListenerState) (f m : Nat) (p : Nat → Payload)
    (l : List Datagram) (dNew : Datagram)
    (hnone : s.last_image = none) (hpool : s.spare_images ≠ [])
    (hbuf : ∀ b ∈ s.spare_images, b.length = 64)
    (hlen : l.length = m) (hm0 : 0 < m) (hm : m < 64)
    (hwf : ∀ d ∈ l, goodPacket f p d)
    (hnodup : (l.map (fun d => d.header.packet_number)).Nodup)
    (hnew : dNew.header.frame_number = f + 1) (hnewpn : dNew.header.packet_number < 64)
    (hnewdrop : dNew.dropped_packets = 0) (hnewbytes : dNew.bytes = 8240)
    (hpd : s.stats.packets_dropped + 64 < U64) (his : s.stats.images_seen + 2 < U64) :
    ∃ g evts comps, processPackets acqNum s (l ++ [dNew]) = some (g, evts, comps) ∧
      g.stats.packets_dropped = s.stats.packets_dropped + (64 - m) ∧
      g.stats.images_seen = s.stats.images_seen + 2 := by
  obtain ⟨stats, li, pool⟩ := s
  obtain rfl : li = none := hnone
  have hpd1 : stats.packets_dropped + 64 < U64 := hpd
  have his1 : stats.images_seen + 2 < U64 := his
  cases l with
  | nil =>
    simp only [List.length_nil] at hlen
    omega
  | cons d rest =>
    cases pool with
    | nil => exact absurd rfl hpool
    | cons buf pool =>
      obtain ⟨hdf, hdpn, hdpay, hddrop, hdbytes⟩ := hwf d (by simp)
      have hbuf64 : buf.length = 64 := hbuf buf (by simp)
      have hrestlen : rest.length = m - 1 := by
        simp only [List.length_cons] at hlen
        omega
      set img0 : ReceiveImage :=
        { frame_number := d.header.frame_number, header := d.header, received_packets := 0, data := buf }
        with himg0
      have hstep : processPacket acqNum
          { stats := stats, last_image := none, spare_images := buf :: pool } d =
            some (deliverPacket [AcquisitionLifecycleState.Starting acqNum]
              { stats with images_seen := u64 (stats.images_seen + 1) } pool d img0) := by
        rw [processPacket_fresh acqNum stats buf pool d hddrop hdpn hdbytes,
            processCurrent_same_frame _ _ _ _ _ rfl]
      have hnc : u64 (img0.received_packets + 1) ≠ 64 := by
        show u64 (0 + 1) ≠ 64
        decide
      obtain ⟨img2, hrun, h2f, h2h, h2len, h2rec, h2old, h2new⟩ :=
        processPackets_same_frame_partial acqNum f p rest
          { stats with images_seen := u64 (stats.images_seen + 1) }
          { img0 with received_packets := u64 (img0.received_packets + 1),
                      data := img0.data.set d.header.packet_number d.payload }
          pool
          (fun q hq => hwf q (by simp [hq]))
          hdf
          (by show (buf.set d.header.packet_number d.payload).length = 64
              rw [List.length_set]
              exact hbuf64)
          (by show u64 (0 + 1) + rest.length ≤ 63
              have h1 : u64 (0 + 1) = 1 := by decide
              rw [h1, hrestlen]
              omega)
      have h2m : img2.received_packets = m := by
        rw [h2rec]
        show u64 (0 + 1) + rest.length = m
        have h1 : u64 (0 + 1) = 1 := by decide
        rw [h1, hrestlen]
        omega
      have hfirst : processPackets acqNum
          { stats := stats, last_image := none, spare_images := buf :: pool } (d :: rest) =
            some ({ stats := { stats with images_seen := u64 (stats.images_seen + 1) },
                    last_image := some img2, spare_images := pool },
                  [AcquisitionLifecycleState.Starting acqNum], []) := by
        simp only [processPackets, hstep]
        rw [deliverPacket_not_complete _ _ _ _ _ hnc]
        simp only [hrun, List.nil_append, List.append_nil, Option.toList_none]
      have htrans := processPacket_new_frame acqNum
        { stats with images_seen := u64 (stats.images_seen + 1) } img2 pool dNew
        hnewdrop hnewpn hnewbytes
        (by rw [h2f, hnew]; omega)
        (by rw [h2m]; omega)
      have hnc2 : u64 (({ frame_number := dNew.header.frame_number, header := dNew.header,
                          received_packets := 0, data := img2.data } :
                          ReceiveImage).received_packets + 1) ≠ 64 := by
        show u64 (0 + 1) ≠ 64
        decide
      refine ⟨{ stats := { images_seen := u64 (u64 (stats.images_seen + 1) + 1),
                           complete_images := stats.complete_images,
                           packets_dropped := u64 (stats.packets_dropped + (64 - img2.received_packets)),
                           out_of_order := stats.out_of_order },
                last_image := some { frame_number := dNew.header.frame_number,
                                     header := dNew.header,
                                     received_packets := u64 (0 + 1),
                                     data := img2.data.set dNew.header.packet_number dNew.payload },
                spare_images := pool },
              [AcquisitionLifecycleState.Starting acqNum], [], ?_, ?_, ?_⟩
      case _ =>
        rw [processPackets_append acqNum (d :: rest) [dNew]]
        rw [hfirst]
        simp only [processPackets, htrans]
        rw [deliverPacket_not_complete _ _ _ _ _ hnc2]
        simp only [List.nil_append, List.append_nil, Option.toList_none]
      case _ =>
        show u64 (stats.packets_dropped + (64 - img2.received_packets)) =
          stats.packets_dropped + (64 - m)
        rw [h2m]
        have hlt : stats.packets_dropped + (64 - m) < U64 := by omega
        unfold U64 at hlt
        unfold u64 U64
        omega
      case _ =>
        show u64 (u64 (stats.images_seen + 1) + 1) = stats.images_seen + 2
        unfold u64 U64
        unfold U64 at his1
        omega

end Morgul

namespace Morgul

theorem reassembly_correct_witness :
    ((c7Packets.map (fun d => d.header.packet_number)).Perm (List.range 64)) ∧
    (∀ d ∈ c7Packets, goodPacket 100 (fun k => k) d) ∧
    (∃ g evts img1, processPackets 0 initialListenerState c7Packets = some (g, evts, [img1]) ∧
      img1.frame_number = 100 ∧ img1.received_packets = 64 ∧
      (∀ k, k < 64 → img1.data[k]? = some ((fun k => k) k)) ∧
      g.stats.complete_images = u64 (initialListenerState.stats.complete_images + 1) ∧
      g.last_image = none) :=
  ⟨by decide, by decide,
   reassembly_correct 0 initialListenerState 100 (fun k => k) c7Packets (by decide) (by decide)
     (by decide) (by decide) (by decide)⟩

theorem loss_accounting_witness :
    ([datagramFP 7 0].length = 1) ∧ ((datagramFP 8 5).header.frame_number = 7 + 1) ∧
    (∃ g evts comps,
      processPackets 0 initialListenerState ([datagramFP 7 0] ++ [datagramFP 8 5]) =
        some (g, evts, comps) ∧
      g.stats.packets_dropped = initialListenerState.stats.packets_dropped + (64 - 1) ∧
      g.stats.images_seen = initialListenerState.stats.images_seen + 2) :=
  ⟨by decide, by decide,
   loss_accounting 0 initialListenerState 7 1 (fun _ => 0) [datagramFP 7 0] (datagramFP 8 5)
     (by decide) (by decide) (by decide) (by decide) (by decide) (by decide) (by decide)
     (by decide) (by decide) (by decide) (by decide) (by decide) (by decide) (by decide)⟩

end Morgul
